import Mathlib

/-!
Verification development for the process-supervision and telemetry core of
the automate-metashape repository.

The first half embeds `src/python/license_retry_wrapper.py`: the
`OutputMonitor` class (circular buffer, full log, heartbeat, selective
pass-through) and the `run_with_license_retry` supervisor loop (license
failure detection in a bounded window of leading output lines, retry
policy, exit-code propagation).

The second half embeds `src/python/benchmark_monitor.py`: the memory
metric snapshot (`_get_memory_metrics` with cgroup-v2 fallback logic) and
the `monitor` context-manager scope (sample aggregation with rounding,
snapshot fallback for empty sample lists, dual log emission, exception
pass-through).

Conventions of the embedding: wall-clock time is an explicit `Nat`
parameter supplied by the environment; console printing and log-file
writes are modelled as explicit lists of emitted items; subprocess
behaviour is a value (its output lines and its exit code); Python floats
are modelled as rationals, with Python `round(x, 1)` modelled as exact
round-half-even to one decimal.
-/

/-- Substring occurrence test on character lists: does `pat` occur
contiguously inside the second list? -/
def charsContain (pat : List Char) : List Char → Bool
  | [] => pat.isEmpty
  | c :: rest => pat.isPrefixOf (c :: rest) || charsContain pat rest

/-- `pat in s` on strings (Python substring containment). -/
def containsSubstr (s pat : String) : Bool :=
  charsContain pat.toList s.toList

/-- Python `s.lower()` (ASCII case folding, which is all the signature
tests need). -/
def lowerString (s : String) : String :=
  (s.toList.map Char.toLower).asString

/-- Python `s.startswith(p)`. -/
def strStartsWith (s p : String) : Bool :=
  p.toList.isPrefixOf s.toList

/-- Whitespace predicate of Python `str.strip()` (ASCII range). -/
def isPySpace (c : Char) : Bool :=
  c = ' ' || (9 ≤ c.toNat && c.toNat ≤ 13)

/-- Python `s.strip()`: remove whitespace from both ends. -/
def strStrip (s : String) : String :=
  (((s.toList.dropWhile isPySpace).reverse.dropWhile isPySpace).reverse).asString

/-- License failure signature test applied to one output line:
`line.lower()` followed by the two substring tests
(license_retry_wrapper.py lines 293-297). -/
def isLicenseErrorLine (line : String) : Bool :=
  let lower := lowerString line
  containsSubstr lower "license not found" || containsSubstr lower "no license found"

/-- The progress marker string used by `OutputMonitor`. -/
def progressMarker : String := "[automate-metashape-progress]"

/-- `OutputMonitor.important_prefixes` (license_retry_wrapper.py lines 64-69). -/
def importantMarkers : List String :=
  [progressMarker,
   "[automate-metashape-license-wrapper]",
   "[automate-metashape-monitor]",
   "[automate-metashape-heartbeat]"]

/-- Mutable state of an `OutputMonitor` instance.  `hasLogFile` records
whether a full-log path was supplied; the log file contents are modelled
as the list `log` of written lines. -/
structure MonitorState where
  bufferSize : Nat
  heartbeatInterval : Nat
  hasLogFile : Bool
  buffer : List String
  lineCount : Nat
  startTime : Nat
  lastHeartbeat : Nat
  lastContentLine : String
  lastProgress : String
  currentOperation : String
  log : List String
deriving DecidableEq, Repr

/-- `OutputMonitor.__init__`: fresh state at construction time `now`. -/
def OutputMonitor.init (bufferSize heartbeatInterval : Nat) (hasLogFile : Bool)
    (now : Nat) : MonitorState :=
  { bufferSize := bufferSize
    heartbeatInterval := heartbeatInterval
    hasLogFile := hasLogFile
    buffer := []
    lineCount := 0
    startTime := now
    lastHeartbeat := now
    lastContentLine := ""
    lastProgress := ""
    currentOperation := ""
    log := [] }

/-- `collections.deque(maxlen=size).append(line)`: append, evicting from
the front when the result would exceed `size`. -/
def pushBuffer (size : Nat) (buf : List String) (line : String) : List String :=
  let b := buf ++ [line]
  if size < b.length then b.drop (b.length - size) else b

/-- One item printed to the console by the monitor or the supervisor.
Verbatim line output is `raw`; the formatted heartbeat/status prints are
modelled by their data content. -/
inductive ConsoleOut where
  | raw (line : String)
  | opStarted (time : Nat) (op : String)
  | opCompleted (time : Nat) (op : String)
  | heartbeat (time : Nat) (lineCount : Nat) (elapsed : Nat)
      (progress : String) (lastContent : String)
  | licenseCheckPassed
deriving DecidableEq, Repr

/-- Python `s.replace(pat, "", 1)`: delete the first occurrence of `pat`. -/
def replaceFirstChars (pat : List Char) : List Char → List Char
  | [] => []
  | c :: rest =>
    if pat.isPrefixOf (c :: rest) then (c :: rest).drop pat.length
    else c :: replaceFirstChars pat rest

/-- String version of `replaceFirstChars`. -/
def replaceFirst (s pat : String) : String :=
  (replaceFirstChars pat.toList s.toList).asString

/-- `OutputMonitor.process_line` (license_retry_wrapper.py lines 82-152).
Returns the updated state and the console output it produced, given the
current wall-clock time `now`. -/
def processLine (mon : MonitorState) (line : String) (now : Nat) :
    MonitorState × List ConsoleOut :=
  let mon := { mon with
    lineCount := mon.lineCount + 1
    buffer := pushBuffer mon.bufferSize mon.buffer line
    log := if mon.hasLogFile then mon.log ++ [line] else mon.log }
  if mon.heartbeatInterval = 0 then
    (mon, [ConsoleOut.raw line])
  else
    let stripped := strStrip line
    let important := importantMarkers.any (fun p => strStartsWith line p)
    let classified :=
      if strStartsWith stripped progressMarker then
        let lastProgress := replaceFirst stripped (progressMarker ++ " ")
        let opName := (lastProgress.toList.takeWhile (fun c => c != ':')).asString
        let started :=
          if opName ≠ mon.currentOperation then
            ({ mon with lastProgress := lastProgress, currentOperation := opName },
             [ConsoleOut.opStarted now opName])
          else
            ({ mon with lastProgress := lastProgress }, ([] : List ConsoleOut))
        let doneOut :=
          if containsSubstr stripped "100%" then [ConsoleOut.opCompleted now opName]
          else []
        (started.1, started.2 ++ doneOut)
      else if ¬ important then
        ({ mon with lastContentLine := (stripped.toList.take 100).asString },
         ([] : List ConsoleOut))
      else
        (mon, ([] : List ConsoleOut))
    let mon := classified.1
    let passOut :=
      if important && ¬ (strStartsWith line progressMarker) then [ConsoleOut.raw line]
      else []
    if mon.heartbeatInterval ≤ now - mon.lastHeartbeat then
      ({ mon with lastHeartbeat := now },
       classified.2 ++ passOut ++
         [ConsoleOut.heartbeat now mon.lineCount (now - mon.startTime)
            mon.lastProgress mon.lastContentLine])
    else
      (mon, classified.2 ++ passOut)

/-- The supervisor's direct tracking of a line inside the license check
window (license_retry_wrapper.py lines 286-290): buffer append, line
count increment, full-log write — without calling `process_line`. -/
def trackWindowLine (mon : MonitorState) (line : String) : MonitorState :=
  { mon with
    buffer := pushBuffer mon.bufferSize mon.buffer line
    lineCount := mon.lineCount + 1
    log := if mon.hasLogFile then mon.log ++ [line] else mon.log }

/-- `OutputMonitor.reset` (license_retry_wrapper.py lines 178-190):
clear buffer, counters, timers, progress state; truncate the log file. -/
def resetMonitor (mon : MonitorState) (now : Nat) : MonitorState :=
  { mon with
    buffer := []
    lineCount := 0
    startTime := now
    lastHeartbeat := now
    lastContentLine := ""
    lastProgress := ""
    currentOperation := ""
    log := if mon.hasLogFile then [] else mon.log }

/-- Outcome of the per-attempt output-reading loop.  `terminated` records
whether `terminate()`/`wait()` ran; `passedToProcessLine` collects, in
order, the lines handed to `OutputMonitor.process_line`;
`signatureTested` collects, in order, the lines tested for the license
failure signature; `linesRead` collects every line consumed from the
child's stream. -/
structure AttemptResult where
  licenseError : Bool
  terminated : Bool
  monitor : MonitorState
  console : List ConsoleOut
  passedToProcessLine : List String
  signatureTested : List String
  linesRead : List String
deriving DecidableEq, Repr

/-- The `for line in _child_process.stdout` loop of
`run_with_license_retry` (license_retry_wrapper.py lines 277-310).
`idx` is the number of lines consumed so far (used to time
`process_line` calls via `tick`); `lineCount` is the loop's own license
window counter. -/
def runAttemptLoop (K : Nat) (tick : Nat → Nat) :
    Nat → Nat → MonitorState → List String → AttemptResult
  | _, _, mon, [] =>
    { licenseError := false, terminated := false, monitor := mon, console := [],
      passedToProcessLine := [], signatureTested := [], linesRead := [] }
  | idx, lineCount, mon, line :: rest =>
    if lineCount < K then
      let mon := trackWindowLine mon line
      if isLicenseErrorLine line then
        { licenseError := true, terminated := true, monitor := mon,
          console := [ConsoleOut.raw line], passedToProcessLine := [],
          signatureTested := [line], linesRead := [line] }
      else
        let passedMsg : List ConsoleOut :=
          if K ≤ lineCount + 1 then [ConsoleOut.licenseCheckPassed] else []
        let r := runAttemptLoop K tick (idx + 1) (lineCount + 1) mon rest
        { licenseError := r.licenseError, terminated := r.terminated,
          monitor := r.monitor,
          console := ConsoleOut.raw line :: (passedMsg ++ r.console),
          passedToProcessLine := r.passedToProcessLine,
          signatureTested := line :: r.signatureTested,
          linesRead := line :: r.linesRead }
    else
      let step := processLine mon line (tick idx)
      let r := runAttemptLoop K tick (idx + 1) lineCount step.1 rest
      { licenseError := r.licenseError, terminated := r.terminated,
        monitor := r.monitor,
        console := step.2 ++ r.console,
        passedToProcessLine := line :: r.passedToProcessLine,
        signatureTested := r.signatureTested,
        linesRead := line :: r.linesRead }

/-- One attempt's output processing, from a fresh line counter. -/
def runAttempt (K : Nat) (tick : Nat → Nat) (mon : MonitorState)
    (lines : List String) : AttemptResult :=
  runAttemptLoop K tick 0 0 mon lines

/-- Supervisor configuration from the environment:
`LICENSE_MAX_RETRIES`, `LICENSE_RETRY_INTERVAL`, `LICENSE_CHECK_LINES`. -/
structure SupConfig where
  maxRetries : Int
  retryInterval : Nat
  checkLines : Nat
deriving DecidableEq, Repr

/-- Behaviour of one spawn of the worker: its combined output stream and
its exit code. -/
structure WorkerRun where
  lines : List String
  exitCode : Int
deriving DecidableEq, Repr

/-- Observable trace of a supervisor run: how many attempts were started,
the durations of the `time.sleep` calls in order, and the final
`sys.exit` code (`none` when the run is still going after the supplied
fuel). -/
structure SupTrace where
  attemptsRun : Nat
  sleeps : List Nat
  exitCode : Option Int
deriving DecidableEq, Repr

/-- The `while True` retry loop of `run_with_license_retry`
(license_retry_wrapper.py lines 263-339).  `worker i` is the behaviour
of the child spawned on attempt `i` (1-based); `clock i` times the
`process_line` calls of attempt `i`; `resetTime i` is the wall-clock
time at which attempt `i` resets the monitor; `prev` is the number of
attempts already finished; `fuel` bounds the number of loop iterations
modelled. -/
def runSupFrom (cfg : SupConfig) (worker : Nat → WorkerRun) (clock : Nat → Nat → Nat)
    (resetTime : Nat → Nat) : Nat → Nat → MonitorState → SupTrace
  | 0, _, _ => { attemptsRun := 0, sleeps := [], exitCode := none }
  | fuel + 1, prev, mon =>
    let attempt := prev + 1
    let monStart := resetMonitor mon (resetTime attempt)
    let w := worker attempt
    let r := runAttempt cfg.checkLines (clock attempt) monStart w.lines
    if r.licenseError then
      if cfg.maxRetries = 0 then
        { attemptsRun := 1, sleeps := [], exitCode := some 1 }
      else if 0 < cfg.maxRetries ∧ cfg.maxRetries < (attempt : Int) then
        { attemptsRun := 1, sleeps := [], exitCode := some 1 }
      else
        let t := runSupFrom cfg worker clock resetTime fuel attempt r.monitor
        { attemptsRun := t.attemptsRun + 1, sleeps := cfg.retryInterval :: t.sleeps,
          exitCode := t.exitCode }
    else
      { attemptsRun := 1, sleeps := [], exitCode := some w.exitCode }

/-- A full supervisor run starting from attempt 1. -/
def runSupervisor (cfg : SupConfig) (worker : Nat → WorkerRun)
    (clock : Nat → Nat → Nat) (resetTime : Nat → Nat) (fuel : Nat)
    (mon : MonitorState) : SupTrace :=
  runSupFrom cfg worker clock resetTime fuel 0 mon

/-- Does the license failure signature occur within the first `K` lines?
This is the attempt-level license failure predicate. -/
def hasLicenseErrorWindow (K : Nat) (lines : List String) : Bool :=
  (lines.take K).any isLicenseErrorLine

/-! ### Helper lemmas: attempt loop -/

/-- The license flag of an attempt depends only on the leading window of
lines still subject to the signature test. -/
theorem attemptLoop_licenseError (K : Nat) (tick : Nat → Nat) :
    ∀ (ls : List String) (idx lc : Nat) (mon : MonitorState),
    (runAttemptLoop K tick idx lc mon ls).licenseError
      = (ls.take (K - lc)).any isLicenseErrorLine := by
  intro ls
  induction ls with
  | nil => intro idx lc mon; simp [runAttemptLoop]
  | cons line rest ih =>
    intro idx lc mon
    by_cases hlc : lc < K
    · obtain ⟨d, hd⟩ : ∃ d, K - lc = d + 1 := ⟨K - lc - 1, by omega⟩
      by_cases herr : isLicenseErrorLine line = true
      · simp [runAttemptLoop, hlc, herr, hd]
      · have hKd : K - (lc + 1) = d := by omega
        simp [runAttemptLoop, hlc, herr, hd, ih (idx + 1) (lc + 1), hKd]
    · have h0 : K - lc = 0 := by omega
      simp [runAttemptLoop, hlc, h0, ih (idx + 1) lc]

/-- `runAttempt`'s license flag agrees with the window predicate. -/
theorem runAttempt_licenseError (K : Nat) (tick : Nat → Nat) (mon : MonitorState)
    (ls : List String) :
    (runAttempt K tick mon ls).licenseError = hasLicenseErrorWindow K ls := by
  have h := attemptLoop_licenseError K tick ls 0 0 mon
  simpa [runAttempt, hasLicenseErrorWindow] using h

/-- When no line of the remaining window carries the signature, exactly
the lines beyond the window are handed to `process_line`, in order. -/
theorem attemptLoop_passed (K : Nat) (tick : Nat → Nat) :
    ∀ (ls : List String) (idx lc : Nat) (mon : MonitorState),
    (∀ l ∈ ls.take (K - lc), isLicenseErrorLine l = false) →
    (runAttemptLoop K tick idx lc mon ls).passedToProcessLine = ls.drop (K - lc) := by
  intro ls
  induction ls with
  | nil => intro idx lc mon _; simp [runAttemptLoop]
  | cons line rest ih =>
    intro idx lc mon hok
    by_cases hlc : lc < K
    · obtain ⟨d, hd⟩ : ∃ d, K - lc = d + 1 := ⟨K - lc - 1, by omega⟩
      have hline : isLicenseErrorLine line = false := by
        apply hok; rw [hd]; simp
      have hKd : K - (lc + 1) = d := by omega
      have hrest : ∀ l ∈ rest.take (K - (lc + 1)), isLicenseErrorLine l = false := by
        intro l hl
        apply hok
        rw [hd]
        simp only [List.take_succ_cons, List.mem_cons]
        right
        rwa [hKd] at hl
      simp [runAttemptLoop, hlc, hline, hd, ih (idx + 1) (lc + 1) _ hrest, hKd]
    · have h0 : K - lc = 0 := by omega
      have hrest : ∀ l ∈ rest.take (K - lc), isLicenseErrorLine l = false := by
        rw [h0]; simp
      simp [runAttemptLoop, hlc, h0, ih (idx + 1) lc _ hrest]

/-- Lines tested for the signature are always an initial segment of the
remaining window: lines beyond the check window are never tested. -/
theorem attemptLoop_sigTested (K : Nat) (tick : Nat → Nat) :
    ∀ (ls : List String) (idx lc : Nat) (mon : MonitorState),
    (runAttemptLoop K tick idx lc mon ls).signatureTested <+: ls.take (K - lc) := by
  intro ls
  induction ls with
  | nil => intro idx lc mon; simp [runAttemptLoop]
  | cons line rest ih =>
    intro idx lc mon
    by_cases hlc : lc < K
    · obtain ⟨d, hd⟩ : ∃ d, K - lc = d + 1 := ⟨K - lc - 1, by omega⟩
      by_cases herr : isLicenseErrorLine line = true
      · simp only [runAttemptLoop, if_pos hlc, if_pos herr, hd, List.take_succ_cons]
        exact ⟨rest.take d, by simp⟩
      · have hKd : K - (lc + 1) = d := by omega
        have h := ih (idx + 1) (lc + 1) (trackWindowLine mon line)
        rw [hKd] at h
        simp only [runAttemptLoop, if_pos hlc, if_neg herr, hd, List.take_succ_cons]
        exact (List.prefix_cons_inj line).mpr h
    · have h0 : K - lc = 0 := by omega
      have h := ih (idx + 1) lc (processLine mon line (tick idx)).1
      rw [h0] at h ⊢
      simpa [runAttemptLoop, hlc] using h

/-- If the first signature match sits at position `pre.length` inside the
window, the loop terminates the child there: nothing is handed to
`process_line`, only the lines up to and including the match are read or
tested. -/
theorem attemptLoop_firstHit (K : Nat) (tick : Nat → Nat) (bad : String)
    (rest : List String) (hbad : isLicenseErrorLine bad = true) :
    ∀ (pre : List String) (idx lc : Nat) (mon : MonitorState),
    lc + pre.length < K →
    (∀ l ∈ pre, isLicenseErrorLine l = false) →
    (runAttemptLoop K tick idx lc mon (pre ++ bad :: rest)).licenseError = true
    ∧ (runAttemptLoop K tick idx lc mon (pre ++ bad :: rest)).terminated = true
    ∧ (runAttemptLoop K tick idx lc mon (pre ++ bad :: rest)).passedToProcessLine = []
    ∧ (runAttemptLoop K tick idx lc mon (pre ++ bad :: rest)).signatureTested = pre ++ [bad]
    ∧ (runAttemptLoop K tick idx lc mon (pre ++ bad :: rest)).linesRead = pre ++ [bad] := by
  intro pre
  induction pre with
  | nil =>
    intro idx lc mon hK _
    have hlc : lc < K := by simpa using hK
    simp [runAttemptLoop, hlc, hbad]
  | cons p pre ih =>
    intro idx lc mon hK hok
    have hlc : lc < K := by simp at hK; omega
    have hp : isLicenseErrorLine p = false := hok p (by simp)
    have hK' : (lc + 1) + pre.length < K := by simp at hK; omega
    have hok' : ∀ l ∈ pre, isLicenseErrorLine l = false := by
      intro l hl; exact hok l (by simp [hl])
    have h := ih (idx + 1) (lc + 1) (trackWindowLine mon p) hK' hok'
    simp [runAttemptLoop, hlc, hp, h.1, h.2.1, h.2.2.1, h.2.2.2.1, h.2.2.2.2]

/-! ### Helper lemmas: supervisor loop -/

/-- The retry branch of the loop is reachable at attempt `i` (neither of
the two terminal license checks fires). -/
def retryAllowed (cfg : SupConfig) (i : Nat) : Prop :=
  cfg.maxRetries ≠ 0 ∧ ¬(0 < cfg.maxRetries ∧ cfg.maxRetries < (i : Int))

/-- One loop iteration with no license failure: the supervisor exits with
the worker's own exit code, without sleeping. -/
theorem supFrom_step_noLicense (cfg : SupConfig) (worker : Nat → WorkerRun)
    (clock : Nat → Nat → Nat) (rt : Nat → Nat) (fuel prev : Nat) (mon : MonitorState)
    (h : hasLicenseErrorWindow cfg.checkLines (worker (prev + 1)).lines = false) :
    runSupFrom cfg worker clock rt (fuel + 1) prev mon
      = { attemptsRun := 1, sleeps := [], exitCode := some (worker (prev + 1)).exitCode } := by
  simp [runSupFrom, runAttempt_licenseError, h]

/-- One loop iteration with a license failure and `LICENSE_MAX_RETRIES=0`:
immediate exit code 1, no sleep. -/
theorem supFrom_step_license_zero (cfg : SupConfig) (worker : Nat → WorkerRun)
    (clock : Nat → Nat → Nat) (rt : Nat → Nat) (fuel prev : Nat) (mon : MonitorState)
    (h0 : cfg.maxRetries = 0)
    (h : hasLicenseErrorWindow cfg.checkLines (worker (prev + 1)).lines = true) :
    runSupFrom cfg worker clock rt (fuel + 1) prev mon
      = { attemptsRun := 1, sleeps := [], exitCode := some 1 } := by
  simp [runSupFrom, runAttempt_licenseError, h, h0]

/-- Positive retry budget `N`, every attempt a license failure: starting
after `prev` finished attempts, the loop runs `N - prev + 1` more
attempts, sleeps `N - prev` times, and exits 1. -/
theorem supFrom_pos_allLicense (cfg : SupConfig) (worker : Nat → WorkerRun)
    (clock : Nat → Nat → Nat) (rt : Nat → Nat) (N : Nat) (hN : 0 < N)
    (hmr : cfg.maxRetries = (N : Int))
    (hall : ∀ i, hasLicenseErrorWindow cfg.checkLines (worker i).lines = true) :
    ∀ (fuel prev : Nat) (mon : MonitorState), prev ≤ N → N - prev < fuel →
    runSupFrom cfg worker clock rt fuel prev mon
      = { attemptsRun := N - prev + 1,
          sleeps := List.replicate (N - prev) cfg.retryInterval,
          exitCode := some 1 } := by
  intro fuel
  induction fuel with
  | zero => intro prev mon _ hf; omega
  | succ fuel ih =>
    intro prev mon hp hf
    have hc1 : ¬(cfg.maxRetries = 0) := by rw [hmr]; exact_mod_cast Nat.pos_iff_ne_zero.mp hN
    by_cases hpe : prev = N
    · subst hpe
      have hc2 : 0 < cfg.maxRetries ∧ cfg.maxRetries < ((prev + 1 : Nat) : Int) := by
        rw [hmr]; constructor
        · exact_mod_cast hN
        · push_cast; omega
      simp [runSupFrom, runAttempt_licenseError, hall, hc1, hc2]
      omega
    · have hplt : prev < N := by omega
      have hc2 : ¬(0 < cfg.maxRetries ∧ cfg.maxRetries < ((prev + 1 : Nat) : Int)) := by
        rw [hmr]; push_cast; omega
      have hrec := ih (prev + 1)
        (runAttempt cfg.checkLines (clock (prev + 1))
          (resetMonitor mon (rt (prev + 1))) (worker (prev + 1)).lines).monitor
        (by omega) (by omega)
      have e1 : N - prev = N - (prev + 1) + 1 := by omega
      simp only [runSupFrom, runAttempt_licenseError, hall, if_pos rfl, if_neg hc1,
        if_neg hc2, if_true, hrec, e1]
      simp [List.replicate_succ]

/-- Negative retry budget, every attempt a license failure: the loop
never exits; it sleeps once per attempt, indefinitely. -/
theorem supFrom_neg_allLicense (cfg : SupConfig) (worker : Nat → WorkerRun)
    (clock : Nat → Nat → Nat) (rt : Nat → Nat) (hneg : cfg.maxRetries < 0)
    (hall : ∀ i, hasLicenseErrorWindow cfg.checkLines (worker i).lines = true) :
    ∀ (fuel prev : Nat) (mon : MonitorState),
    runSupFrom cfg worker clock rt fuel prev mon
      = { attemptsRun := fuel,
          sleeps := List.replicate fuel cfg.retryInterval,
          exitCode := none } := by
  intro fuel
  induction fuel with
  | zero => intro prev mon; simp [runSupFrom]
  | succ fuel ih =>
    intro prev mon
    have hc1 : ¬(cfg.maxRetries = 0) := by omega
    have hc2 : ¬(0 < cfg.maxRetries ∧ cfg.maxRetries < ((prev + 1 : Nat) : Int)) := by
      omega
    simp [runSupFrom, runAttempt_licenseError, hall, hc1, hc2, ih,
      List.replicate_succ]
    omega

/-- Attempts `1..m-1` are license failures with the retry branch
reachable, attempt `m` is not a license failure: the supervisor performs
exactly `m - prev` further attempts, sleeps before each retry, and exits
with attempt `m`'s worker exit code. -/
theorem supFrom_firstSuccess (cfg : SupConfig) (worker : Nat → WorkerRun)
    (clock : Nat → Nat → Nat) (rt : Nat → Nat) (m : Nat)
    (hfail : ∀ i, 0 < i → i < m → hasLicenseErrorWindow cfg.checkLines (worker i).lines = true)
    (hra : ∀ i, 0 < i → i < m → retryAllowed cfg i)
    (hok : hasLicenseErrorWindow cfg.checkLines (worker m).lines = false) :
    ∀ (fuel prev : Nat) (mon : MonitorState), prev < m → m - prev ≤ fuel →
    runSupFrom cfg worker clock rt fuel prev mon
      = { attemptsRun := m - prev,
          sleeps := List.replicate (m - prev - 1) cfg.retryInterval,
          exitCode := some (worker m).exitCode } := by
  intro fuel
  induction fuel with
  | zero => intro prev mon hp hf; omega
  | succ fuel ih =>
    intro prev mon hp hf
    by_cases hpe : prev + 1 = m
    · have h := supFrom_step_noLicense cfg worker clock rt fuel prev mon (by rw [hpe]; exact hok)
      rw [h]
      have e1 : m - prev = 1 := by omega
      simp [e1, hpe]
    · have hlt : prev + 1 < m := by omega
      have hfl := hfail (prev + 1) (by omega) hlt
      obtain ⟨hc1, hc2⟩ := hra (prev + 1) (by omega) hlt
      have hrec := ih (prev + 1)
        (runAttempt cfg.checkLines (clock (prev + 1))
          (resetMonitor mon (rt (prev + 1))) (worker (prev + 1)).lines).monitor
        (by omega) (by omega)
      have e1 : m - prev = (m - (prev + 1)) + 1 := by omega
      simp only [runSupFrom, runAttempt_licenseError, hfl, if_pos rfl, if_neg hc1,
        if_neg hc2, if_true, hrec, e1]
      have e3 : m - (prev + 1) = m - (prev + 1) - 1 + 1 := by omega
      simp only [Nat.add_sub_cancel]
      conv_rhs => rw [e3]
      rw [List.replicate_succ]
      simp
      omega

/-! ### Helper lemmas: circular buffer -/

/-- `pushBuffer` always keeps the suffix that fits in the capacity. -/
theorem pushBuffer_eq_drop (N : Nat) (buf : List String) (line : String) :
    pushBuffer N buf line = (buf ++ [line]).drop (buf.length + 1 - N) := by
  show (if N < (buf ++ [line]).length then
          (buf ++ [line]).drop ((buf ++ [line]).length - N)
        else (buf ++ [line]))
      = (buf ++ [line]).drop (buf.length + 1 - N)
  by_cases h : N < (buf ++ [line]).length
  · rw [if_pos h]
    congr 1
    simp
  · rw [if_neg h]
    have h0 : buf.length + 1 - N = 0 := by simp at h; omega
    rw [h0, List.drop_zero]

/-- Folding lines into a buffer that fits yields the suffix of all
recorded lines that fits in the capacity. -/
theorem foldl_pushBuffer (N : Nat) :
    ∀ (ls buf : List String), buf.length ≤ N →
    ls.foldl (pushBuffer N) buf = (buf ++ ls).drop (buf.length + ls.length - N) := by
  intro ls
  induction ls with
  | nil =>
    intro buf h
    simp [Nat.sub_eq_zero_of_le h]
  | cons line rest ih =>
    intro buf h
    have hlen : (pushBuffer N buf line).length ≤ N := by
      rw [pushBuffer_eq_drop, List.length_drop]
      simp only [List.length_append, List.length_singleton]
      omega
    have hk : buf.length + 1 - N ≤ (buf ++ [line]).length := by
      simp only [List.length_append, List.length_singleton]
      omega
    rw [List.foldl_cons, ih _ hlen, pushBuffer_eq_drop,
      ← List.drop_append_of_le_length hk, List.drop_drop]
    congr 1
    · rw [List.length_drop]
      simp only [List.length_append, List.length_singleton, List.length_cons,
        List.length_nil, List.length_drop]
      omega
    · simp

/-- `process_line` always appends the line to the circular buffer,
whatever else it does. -/
theorem processLine_fst_buffer (mon : MonitorState) (line : String) (now : Nat) :
    (processLine mon line now).1.buffer = pushBuffer mon.bufferSize mon.buffer line := by
  unfold processLine
  dsimp only
  repeat' split
  all_goals rfl

/-- A fixed concrete monitor state used by the concrete instantiations
below (buffer capacity 100, heartbeat interval 60, log file present). -/
def monW : MonitorState := OutputMonitor.init 100 60 true 0

/-- C3: if a line within the check window carries the failure signature,
the supervisor terminates the child, waits for it, and reads no further
output: nothing is handed to `process_line`, the signature test sees
exactly the lines up to and including the match, and (last conjunct)
lines beyond the check window are never signature-tested. -/
theorem c3_license_failure_stops_reading
    (K : Nat) (tick : Nat → Nat) (mon : MonitorState)
    (pre : List String) (bad : String) (rest : List String)
    (hK : pre.length < K)
    (hpre : ∀ l ∈ pre, isLicenseErrorLine l = false)
    (hbad : isLicenseErrorLine bad = true) :
    (runAttempt K tick mon (pre ++ bad :: rest)).licenseError = true
    ∧ (runAttempt K tick mon (pre ++ bad :: rest)).terminated = true
    ∧ (runAttempt K tick mon (pre ++ bad :: rest)).passedToProcessLine = []
    ∧ (runAttempt K tick mon (pre ++ bad :: rest)).signatureTested = pre ++ [bad]
    ∧ (runAttempt K tick mon (pre ++ bad :: rest)).linesRead = pre ++ [bad]
    ∧ ∀ ls : List String, (runAttempt K tick mon ls).signatureTested <+: ls.take K := by
  have h := attemptLoop_firstHit K tick bad rest hbad pre 0 0 mon (by omega) hpre
  refine ⟨h.1, h.2.1, h.2.2.1, h.2.2.2.1, h.2.2.2.2, ?_⟩
  intro ls
  have h2 := attemptLoop_sigTested K tick ls 0 0 mon
  simpa [runAttempt] using h2

/-- Concrete instantiation of `c3_license_failure_stops_reading`. -/
theorem c3_license_failure_stops_reading_witness :
    (runAttempt 6 (fun _ => 0) monW
        ["starting\n", "ERROR: no license found\n", "later\n"]).passedToProcessLine = []
    ∧ (runAttempt 6 (fun _ => 0) monW
        ["starting\n", "ERROR: no license found\n", "later\n"]).signatureTested
        = ["starting\n", "ERROR: no license found\n"]
    ∧ (runAttempt 6 (fun _ => 0) monW
        ["starting\n", "ERROR: no license found\n", "later\n"]).terminated = true := by
  have h := c3_license_failure_stops_reading 6 (fun _ => 0) monW
    ["starting\n"] "ERROR: no license found\n" ["later\n"]
    (by decide) (by decide) (by decide)
  exact ⟨h.2.2.1, h.2.2.2.1, h.2.1⟩

/-- C4 counterexample: an attempt whose output never carries the failure
signature, under check window 1, hands no line at all to `process_line`
(the window line is handled directly), so not every output line is
passed to `process_line`. -/
theorem c4_counterexample :
    isLicenseErrorLine "hello\n" = false
    ∧ hasLicenseErrorWindow 1 ["hello\n"] = false
    ∧ (runAttempt 1 (fun _ => 0) (OutputMonitor.init 100 60 true 0)
        ["hello\n"]).passedToProcessLine ≠ ["hello\n"] := by
  decide

/-- C4 (amended): for every attempt in which the failure signature never
appears in the check window, exactly the lines beyond the check window
are passed to `OutputMonitor.process_line`, once each, in the order
received; the first `K` lines are handled directly by the supervisor and
never reach `process_line`. -/
theorem c4_lines_beyond_window_processed
    (K : Nat) (tick : Nat → Nat) (mon : MonitorState) (ls : List String)
    (h : ∀ l ∈ ls.take K, isLicenseErrorLine l = false) :
    (runAttempt K tick mon ls).passedToProcessLine = ls.drop K := by
  have h2 := attemptLoop_passed K tick ls 0 0 mon (by simpa using h)
  simpa [runAttempt] using h2

/-- Concrete instantiation of `c4_lines_beyond_window_processed`. -/
theorem c4_lines_beyond_window_processed_witness :
    (runAttempt 2 (fun _ => 0) monW
        ["a\n", "b\n", "c\n", "d\n"]).passedToProcessLine = ["c\n", "d\n"] := by
  rw [c4_lines_beyond_window_processed 2 (fun _ => 0) monW
    ["a\n", "b\n", "c\n", "d\n"] (by decide)]
  rfl

/-- C5: the Output Monitor's circular buffer. `process_line` records via
`pushBuffer`; after recording `M` lines from an empty (freshly reset)
buffer of capacity `N`, the buffer is exactly the suffix of the last
`min N M` recorded lines in arrival order; its length is `min N M`, so
it never exceeds `N`; and recording into a full nonempty buffer evicts
the oldest entry. -/
theorem c5_circular_buffer_invariant (N : Nat) (ls : List String) :
    (∀ (mon : MonitorState) (line : String) (now : Nat),
      (processLine mon line now).1.buffer = pushBuffer mon.bufferSize mon.buffer line)
    ∧ ls.foldl (pushBuffer N) [] = ls.drop (ls.length - N)
    ∧ (ls.foldl (pushBuffer N) []).length = min N ls.length
    ∧ (ls.foldl (pushBuffer N) []).length ≤ N
    ∧ (∀ (buf : List String) (line : String), buf.length = N → 0 < N →
        pushBuffer N buf line = buf.tail ++ [line]) := by
  have hfold : ls.foldl (pushBuffer N) [] = ls.drop (ls.length - N) := by
    have h := foldl_pushBuffer N ls [] (by simp)
    simpa using h
  refine ⟨processLine_fst_buffer, hfold, ?_, ?_, ?_⟩
  · rw [hfold, List.length_drop]
    omega
  · rw [hfold, List.length_drop]
    omega
  · intro buf line hfull hpos
    have h1 : 1 ≤ buf.length := by omega
    rw [pushBuffer_eq_drop, hfull]
    have h2 : N + 1 - N = 1 := by omega
    rw [h2, List.drop_append_of_le_length h1, List.drop_one]

/-- Concrete instantiation of `c5_circular_buffer_invariant`. -/
theorem c5_circular_buffer_invariant_witness :
    pushBuffer 2 ["a\n", "b\n"] "c\n" = ["b\n", "c\n"]
    ∧ ["a\n", "b\n", "c\n"].foldl (pushBuffer 2) [] = ["b\n", "c\n"]
    ∧ (["a\n", "b\n", "c\n"].foldl (pushBuffer 2) []).length = min 2 3 := by
  have h := c5_circular_buffer_invariant 2 ["a\n", "b\n", "c\n"]
  refine ⟨h.2.2.2.2 ["a\n", "b\n"] "c\n" (by decide) (by decide), ?_, ?_⟩
  · rw [h.2.1]
    rfl
  · rw [h.2.2.1]
    decide

/-- C9: a line inside the license check window is tracked by the
supervisor directly — circular buffer append, line count increment and
full-log write — without calling `process_line`: heartbeat timing,
progress state, last-content state and the operation label are all left
untouched; and the loop prints the line verbatim first, in sparse and in
full-output mode alike (the monitor state, and with it the mode, is
arbitrary here). -/
theorem c9_window_line_direct (mon : MonitorState) (line : String)
    (K tick idx lc : Nat) (h : lc < K) :
    (trackWindowLine mon line).buffer = pushBuffer mon.bufferSize mon.buffer line
    ∧ (trackWindowLine mon line).log
        = (if mon.hasLogFile then mon.log ++ [line] else mon.log)
    ∧ (trackWindowLine mon line).lineCount = mon.lineCount + 1
    ∧ (trackWindowLine mon line).lastHeartbeat = mon.lastHeartbeat
    ∧ (trackWindowLine mon line).lastProgress = mon.lastProgress
    ∧ (trackWindowLine mon line).lastContentLine = mon.lastContentLine
    ∧ (trackWindowLine mon line).currentOperation = mon.currentOperation
    ∧ (trackWindowLine mon line).startTime = mon.startTime
    ∧ (runAttemptLoop K (fun _ => tick) idx lc mon [line]).console.head?
        = some (ConsoleOut.raw line)
    ∧ (runAttemptLoop K (fun _ => tick) idx lc mon [line]).monitor
        = trackWindowLine mon line
    ∧ (runAttemptLoop K (fun _ => tick) idx lc mon [line]).passedToProcessLine = [] := by
  refine ⟨rfl, rfl, rfl, rfl, rfl, rfl, rfl, rfl, ?_, ?_, ?_⟩
  all_goals by_cases herr : isLicenseErrorLine line = true
  all_goals simp [runAttemptLoop, h, herr]

/-- Concrete instantiation of `c9_window_line_direct`. -/
theorem c9_window_line_direct_witness :
    (trackWindowLine monW "hello\n").lastHeartbeat = monW.lastHeartbeat
    ∧ (runAttemptLoop 6 (fun _ => 0) 0 0 monW ["hello\n"]).console.head?
        = some (ConsoleOut.raw "hello\n")
    ∧ (runAttemptLoop 6 (fun _ => 0) 0 0 monW ["hello\n"]).passedToProcessLine = [] := by
  have h := c9_window_line_direct monW "hello\n" 6 0 0 0 (by decide)
  exact ⟨h.2.2.2.1, h.2.2.2.2.2.2.2.2.1, h.2.2.2.2.2.2.2.2.2.2⟩

/-- C1: the retry policy on license failures.  With `LICENSE_MAX_RETRIES`
zero, a first-attempt license failure exits immediately with code 1 and
no sleep.  With a positive budget `N` and every attempt a license
failure, exactly `N` retries run (attempts 2..N+1), each preceded by one
sleep of the configured interval, before exit code 1.  With a negative
budget, the loop never exits while attempts keep failing on license, and
stops at the first attempt with a non-license outcome. -/
theorem c1_retry_policy (cfg : SupConfig) (worker : Nat → WorkerRun)
    (clock : Nat → Nat → Nat) (rt : Nat → Nat) (mon : MonitorState) :
    (cfg.maxRetries = 0 →
      hasLicenseErrorWindow cfg.checkLines (worker 1).lines = true →
      ∀ fuel : Nat, runSupervisor cfg worker clock rt (fuel + 1) mon
        = { attemptsRun := 1, sleeps := [], exitCode := some 1 })
    ∧ (∀ N : Nat, 0 < N → cfg.maxRetries = (N : Int) →
        (∀ i, hasLicenseErrorWindow cfg.checkLines (worker i).lines = true) →
        ∀ fuel : Nat, N < fuel →
        runSupervisor cfg worker clock rt fuel mon
          = { attemptsRun := N + 1, sleeps := List.replicate N cfg.retryInterval,
              exitCode := some 1 })
    ∧ (cfg.maxRetries < 0 →
        ((∀ i, hasLicenseErrorWindow cfg.checkLines (worker i).lines = true) →
          ∀ fuel : Nat, runSupervisor cfg worker clock rt fuel mon
            = { attemptsRun := fuel, sleeps := List.replicate fuel cfg.retryInterval,
                exitCode := none })
        ∧ (∀ m : Nat, 0 < m →
            (∀ i, 0 < i → i < m →
              hasLicenseErrorWindow cfg.checkLines (worker i).lines = true) →
            hasLicenseErrorWindow cfg.checkLines (worker m).lines = false →
            ∀ fuel : Nat, m ≤ fuel →
            runSupervisor cfg worker clock rt fuel mon
              = { attemptsRun := m, sleeps := List.replicate (m - 1) cfg.retryInterval,
                  exitCode := some (worker m).exitCode })) := by
  refine ⟨?_, ?_, ?_⟩
  · intro h0 h1 fuel
    exact supFrom_step_license_zero cfg worker clock rt fuel 0 mon h0 h1
  · intro N hN hmr hall fuel hf
    have h := supFrom_pos_allLicense cfg worker clock rt N hN hmr hall fuel 0 mon
      (by omega) (by omega)
    simpa [runSupervisor] using h
  · intro hneg
    constructor
    · intro hall fuel
      exact supFrom_neg_allLicense cfg worker clock rt hneg hall fuel 0 mon
    · intro m hm hfail hok fuel hf
      have hra : ∀ i, 0 < i → i < m → retryAllowed cfg i := by
        intro i _ _
        constructor
        · omega
        · omega
      have h := supFrom_firstSuccess cfg worker clock rt m hfail hra hok fuel 0 mon
        (by omega) (by omega)
      simpa [runSupervisor] using h

/-- Concrete worker behaviours for the supervisor instantiations. -/
def workerAllFail : Nat → WorkerRun :=
  fun _ => { lines := ["no license found\n"], exitCode := 1 }

/-- Worker that fails on license for attempts 1 and 2 and succeeds on 3. -/
def workerThirdOk : Nat → WorkerRun :=
  fun i => if i < 3 then { lines := ["no license found\n"], exitCode := 1 }
           else { lines := ["ok\n"], exitCode := 0 }

/-- Worker that exits 7 without a license failure. -/
def workerExit7 : Nat → WorkerRun :=
  fun _ => { lines := ["boom\n"], exitCode := 7 }

/-- Supervisor configurations for the instantiations. -/
def cfgW0 : SupConfig := { maxRetries := 0, retryInterval := 300, checkLines := 6 }

/-- Positive budget configuration. -/
def cfgW2 : SupConfig := { maxRetries := 2, retryInterval := 300, checkLines := 6 }

/-- Unlimited-retries configuration. -/
def cfgWneg : SupConfig := { maxRetries := -1, retryInterval := 300, checkLines := 6 }

/-- Concrete instantiation of `c1_retry_policy`: all three retry regimes. -/
theorem c1_retry_policy_witness :
    runSupervisor cfgW0 workerAllFail (fun _ _ => 0) (fun _ => 0) 5 monW
      = { attemptsRun := 1, sleeps := [], exitCode := some 1 }
    ∧ runSupervisor cfgW2 workerAllFail (fun _ _ => 0) (fun _ => 0) 5 monW
      = { attemptsRun := 3, sleeps := [300, 300], exitCode := some 1 }
    ∧ runSupervisor cfgWneg workerAllFail (fun _ _ => 0) (fun _ => 0) 4 monW
      = { attemptsRun := 4, sleeps := [300, 300, 300, 300], exitCode := none }
    ∧ runSupervisor cfgWneg workerThirdOk (fun _ _ => 0) (fun _ => 0) 5 monW
      = { attemptsRun := 3, sleeps := [300, 300], exitCode := some 0 } := by
  have hl : hasLicenseErrorWindow 6 ["no license found\n"] = true := by decide
  refine ⟨?_, ?_, ?_, ?_⟩
  · exact (c1_retry_policy cfgW0 workerAllFail (fun _ _ => 0) (fun _ => 0) monW).1
      rfl (by decide) 4
  · have h := (c1_retry_policy cfgW2 workerAllFail (fun _ _ => 0) (fun _ => 0) monW).2.1
      2 (by decide) rfl (fun _ => hl) 5 (by decide)
    rw [h]
    rfl
  · exact ((c1_retry_policy cfgWneg workerAllFail (fun _ _ => 0) (fun _ => 0) monW).2.2
      (by decide)).1 (fun _ => hl) 4
  · have h := ((c1_retry_policy cfgWneg workerThirdOk (fun _ _ => 0) (fun _ => 0) monW).2.2
      (by decide)).2 3 (by decide)
      (by
        intro i hi0 hi3
        simp only [workerThirdOk, if_pos hi3]
        decide)
      (by decide) 5 (by decide)
    rw [h]
    rfl

/-- C2: the supervisor's final exit code.  A non-license attempt
propagates the worker's exit code unchanged (0 on success, the worker's
own code otherwise), including after earlier license retries; a license
failure with retries disabled exits 1; an exhausted positive retry
budget exits 1. -/
theorem c2_exit_codes (cfg : SupConfig) (worker : Nat → WorkerRun)
    (clock : Nat → Nat → Nat) (rt : Nat → Nat) (mon : MonitorState) (fuel : Nat) :
    (hasLicenseErrorWindow cfg.checkLines (worker 1).lines = false →
      (worker 1).exitCode = 0 →
      (runSupervisor cfg worker clock rt (fuel + 1) mon).exitCode = some 0)
    ∧ (hasLicenseErrorWindow cfg.checkLines (worker 1).lines = false →
      (runSupervisor cfg worker clock rt (fuel + 1) mon).exitCode
        = some (worker 1).exitCode)
    ∧ (∀ m : Nat, 0 < m →
        (∀ i, 0 < i → i < m →
          hasLicenseErrorWindow cfg.checkLines (worker i).lines = true
          ∧ retryAllowed cfg i) →
        hasLicenseErrorWindow cfg.checkLines (worker m).lines = false →
        m ≤ fuel →
        (runSupervisor cfg worker clock rt fuel mon).exitCode
          = some (worker m).exitCode)
    ∧ (cfg.maxRetries = 0 →
        hasLicenseErrorWindow cfg.checkLines (worker 1).lines = true →
        (runSupervisor cfg worker clock rt (fuel + 1) mon).exitCode = some 1)
    ∧ (∀ N : Nat, 0 < N → cfg.maxRetries = (N : Int) →
        (∀ i, hasLicenseErrorWindow cfg.checkLines (worker i).lines = true) →
        N < fuel →
        (runSupervisor cfg worker clock rt fuel mon).exitCode = some 1) := by
  refine ⟨?_, ?_, ?_, ?_, ?_⟩
  · intro h1 h0
    rw [runSupervisor, supFrom_step_noLicense cfg worker clock rt fuel 0 mon h1, h0]
  · intro h1
    rw [runSupervisor, supFrom_step_noLicense cfg worker clock rt fuel 0 mon h1]
  · intro m hm h hok hf
    have h2 := supFrom_firstSuccess cfg worker clock rt m
      (fun i a b => (h i a b).1) (fun i a b => (h i a b).2) hok fuel 0 mon
      (by omega) (by omega)
    rw [runSupervisor, h2]
  · intro h0 h1
    rw [runSupervisor, supFrom_step_license_zero cfg worker clock rt fuel 0 mon h0 h1]
  · intro N hN hmr hall hf
    have h2 := supFrom_pos_allLicense cfg worker clock rt N hN hmr hall fuel 0 mon
      (by omega) (by omega)
    rw [runSupervisor, h2]

/-- Concrete instantiation of `c2_exit_codes`: all exit code regimes. -/
theorem c2_exit_codes_witness :
    (runSupervisor cfgW2 (fun _ => { lines := ["ok\n"], exitCode := 0 })
        (fun _ _ => 0) (fun _ => 0) 1 monW).exitCode = some 0
    ∧ (runSupervisor cfgW2 workerExit7 (fun _ _ => 0) (fun _ => 0) 1 monW).exitCode
        = some 7
    ∧ (runSupervisor cfgWneg workerThirdOk (fun _ _ => 0) (fun _ => 0) 5 monW).exitCode
        = some 0
    ∧ (runSupervisor cfgW0 workerAllFail (fun _ _ => 0) (fun _ => 0) 1 monW).exitCode
        = some 1
    ∧ (runSupervisor cfgW2 workerAllFail (fun _ _ => 0) (fun _ => 0) 5 monW).exitCode
        = some 1 := by
  refine ⟨?_, ?_, ?_, ?_, ?_⟩
  · exact (c2_exit_codes cfgW2 (fun _ => { lines := ["ok\n"], exitCode := 0 })
      (fun _ _ => 0) (fun _ => 0) monW 0).1 (by decide) rfl
  · have h := (c2_exit_codes cfgW2 workerExit7 (fun _ _ => 0) (fun _ => 0) monW 0).2.1
      (by decide)
    rw [h]
    rfl
  · have h := (c2_exit_codes cfgWneg workerThirdOk (fun _ _ => 0) (fun _ => 0) monW 5).2.2.1
      3 (by decide)
      (by
        intro i hi0 hi3
        constructor
        · simp only [workerThirdOk, if_pos hi3]
          decide
        · constructor
          · decide
          · intro hc
            exact absurd hc.1 (by decide))
      (by decide) (by decide)
    rw [h]
    rfl
  · exact (c2_exit_codes cfgW0 workerAllFail (fun _ _ => 0) (fun _ => 0) monW 0).2.2.2.1
      rfl (by decide)
  · have hl : hasLicenseErrorWindow 6 ["no license found\n"] = true := by decide
    exact (c2_exit_codes cfgW2 workerAllFail (fun _ _ => 0) (fun _ => 0) monW 5).2.2.2.2
      2 (by decide) rfl (fun _ => hl) (by decide)

/-! ### Benchmark monitor embedding (src/python/benchmark_monitor.py) -/

/-- Round-half-even to an integer: the rounding mode of Python `round`. -/
def roundHalfEven (q : ℚ) : ℤ :=
  let f := ⌊q⌋
  let r := q - (f : ℚ)
  if r < 1/2 then f
  else if (1 : ℚ)/2 < r then f + 1
  else if f % 2 = 0 then f else f + 1

/-- Python `round(x, 1)` on the rational model of floats. -/
def round1 (q : ℚ) : ℚ := (roundHalfEven (10 * q) : ℚ) / 10

/-- `_bytes_to_gb` (benchmark_monitor.py lines 72-76) on a present value. -/
def bytesToGb (x : Int) : ℚ := (x : ℚ) / (1024 * 1024 * 1024)

/-- One memory metrics snapshot in GB, the result shape of
`_get_memory_metrics`.  After the fallbacks in that function none of the
fields can be absent, so they are plain rationals. -/
structure MemMetrics where
  procMemGb : ℚ
  containerLimitGb : ℚ
  containerUsedGb : ℚ
  containerAvailGb : ℚ
  sysTotalGb : ℚ
  sysUsedGb : ℚ
  sysAvailGb : ℚ
deriving DecidableEq, Repr

/-- Environment read by `_get_memory_metrics`: contents of the two
cgroup-v2 files when they exist, the summed process RSS, and the psutil
whole-system memory figures. -/
structure MemEnv where
  cgroupMaxFile : Option String
  cgroupCurrentFile : Option String
  procMemBytes : Nat
  sysTotalBytes : Nat
  sysUsedBytes : Nat
  sysAvailBytes : Nat
deriving DecidableEq, Repr

/-- `_is_in_cgroup_v2` (benchmark_monitor.py lines 37-39). -/
def isInCgroupV2 (env : MemEnv) : Bool :=
  env.cgroupMaxFile.isSome && env.cgroupCurrentFile.isSome

/-- Decimal digit accumulator for the model of Python `int(...)`. -/
def digitsToNatAux : Nat → List Char → Option Nat
  | acc, [] => some acc
  | acc, c :: rest =>
    if c.isDigit then digitsToNatAux (acc * 10 + (c.toNat - 48)) rest else none

/-- Parse a nonempty all-digit string. -/
def parseDigits : List Char → Option Nat
  | [] => none
  | s => digitsToNatAux 0 s

/-- Model of Python `int(s)` for a stripped string: optional sign then
decimal digits, `none` when malformed (Python would raise ValueError,
which the callers catch and turn into `None`). -/
def strToInt (s : String) : Option Int :=
  match s.toList with
  | [] => none
  | c :: rest =>
    if c = '-' then (parseDigits rest).map (fun n => -(n : Int))
    else if c = '+' then (parseDigits rest).map (fun n => (n : Int))
    else (parseDigits (c :: rest)).map (fun n => (n : Int))

/-- `_read_cgroup_memory_limit` (benchmark_monitor.py lines 42-57):
`none` for a missing/unreadable file, for the literal `max` (no limit),
and for unparseable content. -/
def readCgroupMemoryLimit (env : MemEnv) : Option Int :=
  match env.cgroupMaxFile with
  | none => none
  | some content =>
    let c := strStrip content
    if c = "max" then none else strToInt c

/-- `_read_cgroup_memory_current` (benchmark_monitor.py lines 59-69). -/
def readCgroupMemoryCurrent (env : MemEnv) : Option Int :=
  match env.cgroupCurrentFile with
  | none => none
  | some content => strToInt (strStrip content)

/-- `_get_memory_metrics` (benchmark_monitor.py lines 168-219). -/
def getMemoryMetrics (env : MemEnv) : MemMetrics :=
  let sysTotal : Int := env.sysTotalBytes
  let sysUsed : Int := env.sysUsedBytes
  let sysAvail : Int := env.sysAvailBytes
  let procMem : Int := env.procMemBytes
  if isInCgroupV2 env then
    let containerLimit := (readCgroupMemoryLimit env).getD sysTotal
    let containerUsed := (readCgroupMemoryCurrent env).getD sysUsed
    let containerAvail := containerLimit - containerUsed
    { procMemGb := bytesToGb procMem
      containerLimitGb := bytesToGb containerLimit
      containerUsedGb := bytesToGb containerUsed
      containerAvailGb := bytesToGb containerAvail
      sysTotalGb := bytesToGb sysTotal
      sysUsedGb := bytesToGb sysUsed
      sysAvailGb := bytesToGb sysAvail }
  else
    { procMemGb := bytesToGb procMem
      containerLimitGb := bytesToGb sysTotal
      containerUsedGb := bytesToGb sysUsed
      containerAvailGb := bytesToGb sysAvail
      sysTotalGb := bytesToGb sysTotal
      sysUsedGb := bytesToGb sysUsed
      sysAvailGb := bytesToGb sysAvail }

/-- Python `max(...)` over a list of rationals (callers guarantee
nonemptiness; the empty case is arbitrary). -/
def listMax : List ℚ → ℚ
  | [] => 0
  | x :: xs => xs.foldl max x

/-- Python `min(...)` over a list of rationals. -/
def listMin : List ℚ → ℚ
  | [] => 0
  | x :: xs => xs.foldl min x

/-- Python `sum(...)` over a list of rationals. -/
def listSum (l : List ℚ) : ℚ := l.foldl (· + ·) 0

/-- The `peak_memory` dictionary computed on scope exit
(benchmark_monitor.py lines 317-351). -/
structure PeakMemory where
  procMemPeakGb : ℚ
  containerLimitGb : ℚ
  containerUsedPeakGb : ℚ
  containerAvailMinGb : ℚ
  sysTotalGb : ℚ
  sysUsedPeakGb : ℚ
  sysAvailMinGb : ℚ
deriving DecidableEq, Repr

/-- Peak/trough aggregation over the memory samples, with the
single-immediate-snapshot fallback (`currentMem`) when no samples were
collected (benchmark_monitor.py lines 317-351).  The nonempty branch
reads `memory_samples[-1]` for the limit/total figures. -/
def computePeakMemory (memorySamples : List MemMetrics) (currentMem : MemMetrics) :
    PeakMemory :=
  if memorySamples.isEmpty then
    { procMemPeakGb := round1 currentMem.procMemGb
      containerLimitGb := round1 currentMem.containerLimitGb
      containerUsedPeakGb := round1 currentMem.containerUsedGb
      containerAvailMinGb := round1 currentMem.containerAvailGb
      sysTotalGb := round1 currentMem.sysTotalGb
      sysUsedPeakGb := round1 currentMem.sysUsedGb
      sysAvailMinGb := round1 currentMem.sysAvailGb }
  else
    { procMemPeakGb := round1 (listMax (memorySamples.map (fun s => s.procMemGb)))
      containerLimitGb := round1 (memorySamples.getLastD currentMem).containerLimitGb
      containerUsedPeakGb :=
        round1 (listMax (memorySamples.map (fun s => s.containerUsedGb)))
      containerAvailMinGb :=
        round1 (listMin (memorySamples.map (fun s => s.containerAvailGb)))
      sysTotalGb := round1 (memorySamples.getLastD currentMem).sysTotalGb
      sysUsedPeakGb := round1 (listMax (memorySamples.map (fun s => s.sysUsedGb)))
      sysAvailMinGb := round1 (listMin (memorySamples.map (fun s => s.sysAvailGb))) }

/-- Static context returned by the `get_system_info_fn` callable; all
fields may be absent from the dictionary. -/
structure SystemInfo where
  cpuCoresAvailable : Option Int
  gpuCount : Option Int
  gpuModel : Option String
  node : Option String
deriving DecidableEq, Repr

/-- A scalar written to the structured YAML log: a number, or a literal
string (the code writes the string `null` for absent values rather than
omitting the key). -/
inductive YamlValue where
  | num (q : ℚ)
  | str (s : String)
deriving DecidableEq, Repr

/-- One `key: value` line of a structured log entry. -/
structure YamlEntry where
  key : String
  value : YamlValue
deriving DecidableEq, Repr

/-- Absent rational rendered as explicit `null`. -/
def optNumToYaml : Option ℚ → YamlValue
  | some q => YamlValue.num q
  | none => YamlValue.str "null"

/-- Absent integer rendered as explicit `null`. -/
def optIntToYaml : Option Int → YamlValue
  | some n => YamlValue.num (n : ℚ)
  | none => YamlValue.str "null"

/-- Absent string rendered as explicit `null`. -/
def optStrToYaml : Option String → YamlValue
  | some s => YamlValue.str s
  | none => YamlValue.str "null"

/-- `_write_yaml_log` (benchmark_monitor.py lines 416-465): the sixteen
`key: value` lines of one structured log entry, in emission order. -/
def yamlEntries (apiCall : String) (duration cpuPercent : ℚ) (gpuPercent : Option ℚ)
    (processCpuCores : ℚ) (peak : PeakMemory) (sysInfo : SystemInfo) :
    List YamlEntry :=
  [ { key := "api_call", value := YamlValue.str apiCall },
    { key := "duration_seconds", value := YamlValue.num duration },
    { key := "cpu_percent", value := YamlValue.num cpuPercent },
    { key := "gpu_percent", value := optNumToYaml gpuPercent },
    { key := "cpu_cores_used", value := YamlValue.num processCpuCores },
    { key := "cpu_cores_available", value := optIntToYaml sysInfo.cpuCoresAvailable },
    { key := "proc_mem_peak_gb", value := YamlValue.num peak.procMemPeakGb },
    { key := "container_limit_gb", value := YamlValue.num peak.containerLimitGb },
    { key := "container_used_peak_gb", value := YamlValue.num peak.containerUsedPeakGb },
    { key := "container_avail_min_gb", value := YamlValue.num peak.containerAvailMinGb },
    { key := "sys_total_gb", value := YamlValue.num peak.sysTotalGb },
    { key := "sys_used_peak_gb", value := YamlValue.num peak.sysUsedPeakGb },
    { key := "sys_avail_min_gb", value := YamlValue.num peak.sysAvailMinGb },
    { key := "gpu_count", value := optIntToYaml sysInfo.gpuCount },
    { key := "gpu_model", value := optStrToYaml sysInfo.gpuModel },
    { key := "node_name", value := optStrToYaml sysInfo.node } ]

/-- The required key set of a structured log entry. -/
def yamlKeys : List String :=
  ["api_call", "duration_seconds", "cpu_percent", "gpu_percent",
   "cpu_cores_used", "cpu_cores_available", "proc_mem_peak_gb",
   "container_limit_gb", "container_used_peak_gb", "container_avail_min_gb",
   "sys_total_gb", "sys_used_peak_gb", "sys_avail_min_gb", "gpu_count",
   "gpu_model", "node_name"]

/-- `system_info.get("gpu_model") or "N/A"` in `_write_human_log`:
Python `or` also maps the empty string to the absent marker. -/
def humanGpuModel (sysInfo : SystemInfo) : Option String :=
  match sysInfo.gpuModel with
  | some s => if s = "" then none else some s
  | none => none

/-- One row of the human-readable fixed-width log (`_write_human_log`,
benchmark_monitor.py lines 376-414).  Absent option fields are rendered
as the literal `N/A` cell; every column is always present. -/
structure HumanRow where
  step : String
  apiCall : String
  durationSeconds : ℚ
  cpuPercent : ℚ
  gpuPercent : Option ℚ
  processCpuCores : ℚ
  peak : PeakMemory
  cpuCoresAvailable : Option Int
  gpuCount : Option Int
  gpuModel : Option String
  node : Option String
deriving DecidableEq, Repr

/-- Samples accumulated by the background sampler thread during one
monitored scope (`sample_utilization`, benchmark_monitor.py lines
261-288). -/
structure SamplerData where
  cpuSamples : List ℚ
  gpuSamples : List ℚ
  processCpuSamples : List ℚ
  memorySamples : List MemMetrics
deriving DecidableEq, Repr

/-- Observable outcome of one `BenchmarkMonitor.monitor` scope: the
wrapped body's own outcome, whether the sampler was signalled to stop
and joined, and the records appended to the two logs. -/
structure ScopeResult (E A : Type) where
  result : Except E A
  stopSignalled : Bool
  samplerJoined : Bool
  humanAppended : List HumanRow
  yamlAppended : List YamlEntry

/-- `BenchmarkMonitor.monitor` (benchmark_monitor.py lines 248-374): the
`finally` block of the context manager, which runs whether the wrapped
body returned or raised.  `data` is what the sampler collected,
`snapshot` the immediate `_get_memory_metrics()` snapshot used when no
samples exist, `body` the wrapped call's outcome, which the scope
returns (or re-raises) unchanged after cleanup and log emission. -/
def runMonitorScope {E A : Type} (currentStep apiCallName : String)
    (data : SamplerData) (snapshot : MemMetrics) (sysInfo : SystemInfo)
    (startTime endTime : ℚ) (body : Except E A) : ScopeResult E A :=
  let duration := round1 (endTime - startTime)
  let cpuPercent :=
    if data.cpuSamples.isEmpty then 0
    else round1 (listSum data.cpuSamples / (data.cpuSamples.length : ℚ))
  let gpuPercent :=
    if data.gpuSamples.isEmpty then none
    else some (round1 (listSum data.gpuSamples / (data.gpuSamples.length : ℚ)))
  let processCpuCores :=
    if data.processCpuSamples.isEmpty then 0
    else round1 (listSum data.processCpuSamples / (data.processCpuSamples.length : ℚ))
  let peak := computePeakMemory data.memorySamples snapshot
  { result := body
    stopSignalled := true
    samplerJoined := true
    humanAppended := [{ step := currentStep
                        apiCall := apiCallName
                        durationSeconds := duration
                        cpuPercent := cpuPercent
                        gpuPercent := gpuPercent
                        processCpuCores := processCpuCores
                        peak := peak
                        cpuCoresAvailable := sysInfo.cpuCoresAvailable
                        gpuCount := sysInfo.gpuCount
                        gpuModel := humanGpuModel sysInfo
                        node := sysInfo.node }]
    yamlAppended := yamlEntries apiCallName duration cpuPercent gpuPercent
      processCpuCores peak sysInfo }

/-! ### Helper lemmas: list extrema -/

/-- The initial accumulator bounds a max-fold from below. -/
theorem le_foldl_max (xs : List ℚ) : ∀ a : ℚ, a ≤ xs.foldl max a := by
  induction xs with
  | nil => intro a; simp
  | cons x xs ih =>
    intro a
    exact le_trans (le_max_left a x) (ih (max a x))

/-- Every member bounds a max-fold from below. -/
theorem mem_le_foldl_max (xs : List ℚ) : ∀ (a x : ℚ), x ∈ xs → x ≤ xs.foldl max a := by
  induction xs with
  | nil => intro a x hx; simp at hx
  | cons y ys ih =>
    intro a x hx
    rcases List.mem_cons.mp hx with h | h
    · subst h
      exact le_trans (le_max_right a x) (le_foldl_max ys (max a x))
    · exact ih (max a y) x h

/-- `listMax` dominates every member of the list. -/
theorem le_listMax (l : List ℚ) (x : ℚ) (hx : x ∈ l) : x ≤ listMax l := by
  cases l with
  | nil => simp at hx
  | cons y ys =>
    rcases List.mem_cons.mp hx with h | h
    · subst h
      exact le_foldl_max ys x
    · exact mem_le_foldl_max ys y x h

/-- The initial accumulator bounds a min-fold from above. -/
theorem foldl_min_le (xs : List ℚ) : ∀ a : ℚ, xs.foldl min a ≤ a := by
  induction xs with
  | nil => intro a; simp
  | cons x xs ih =>
    intro a
    exact le_trans (ih (min a x)) (min_le_left a x)

/-- A min-fold is below every member. -/
theorem foldl_min_le_mem (xs : List ℚ) : ∀ (a x : ℚ), x ∈ xs → xs.foldl min a ≤ x := by
  induction xs with
  | nil => intro a x hx; simp at hx
  | cons y ys ih =>
    intro a x hx
    rcases List.mem_cons.mp hx with h | h
    · subst h
      exact le_trans (foldl_min_le ys (min a x)) (min_le_right a x)
    · exact ih (min a y) x h

/-- `listMin` is below every member of the list. -/
theorem listMin_le (l : List ℚ) (x : ℚ) (hx : x ∈ l) : listMin l ≤ x := by
  cases l with
  | nil => simp at hx
  | cons y ys =>
    rcases List.mem_cons.mp hx with h | h
    · subst h
      exact foldl_min_le ys x
    · exact foldl_min_le_mem ys y x h

/-- C6: a monitored scope whose wrapped operation raised still signals
the sampler to stop, joins it, and appends one complete record to each
log (all sixteen structured keys present), and the exception is returned
to the caller unchanged. -/
theorem c6_exception_propagates_after_cleanup {E A : Type} (e : E)
    (currentStep apiCallName : String) (data : SamplerData) (snapshot : MemMetrics)
    (sysInfo : SystemInfo) (startTime endTime : ℚ) :
    (runMonitorScope currentStep apiCallName data snapshot sysInfo startTime endTime
        (Except.error e : Except E A)).result = Except.error e
    ∧ (runMonitorScope currentStep apiCallName data snapshot sysInfo startTime endTime
        (Except.error e : Except E A)).stopSignalled = true
    ∧ (runMonitorScope currentStep apiCallName data snapshot sysInfo startTime endTime
        (Except.error e : Except E A)).samplerJoined = true
    ∧ (runMonitorScope currentStep apiCallName data snapshot sysInfo startTime endTime
        (Except.error e : Except E A)).humanAppended.length = 1
    ∧ (runMonitorScope currentStep apiCallName data snapshot sysInfo startTime endTime
        (Except.error e : Except E A)).yamlAppended.map (fun en => en.key) = yamlKeys := by
  exact ⟨rfl, rfl, rfl, rfl, rfl⟩

/-- A memory sample as the code would produce it: every figure converted
from whole bytes.  Process RSS is 42949673 bytes, about 0.04 GB. -/
def cexMemSample : MemMetrics :=
  { procMemGb := bytesToGb 42949673
    containerLimitGb := bytesToGb 1073741824
    containerUsedGb := bytesToGb 42949673
    containerAvailGb := bytesToGb 1030792151
    sysTotalGb := bytesToGb 1073741824
    sysUsedGb := bytesToGb 42949673
    sysAvailGb := bytesToGb 1030792151 }

/-- C7 counterexample: with a single sample whose process RSS is about
0.04 GB, the reported peak is the rounded value 0.0, which is strictly
below the sample's own value and differs from the maximum observed — so
a reported peak figure is neither ≥ every sample nor equal to the
maximum. -/
theorem c7_counterexample :
    (computePeakMemory [cexMemSample] cexMemSample).procMemPeakGb
      < cexMemSample.procMemGb
    ∧ (computePeakMemory [cexMemSample] cexMemSample).procMemPeakGb
      ≠ listMax ([cexMemSample].map (fun s => s.procMemGb)) := by
  have hval : (computePeakMemory [cexMemSample] cexMemSample).procMemPeakGb = 0 := by
    show round1 (listMax [cexMemSample.procMemGb]) = 0
    show round1 cexMemSample.procMemGb = 0
    show round1 (bytesToGb 42949673) = 0
    rw [round1, roundHalfEven, bytesToGb]
    norm_num
  refine ⟨?_, ?_⟩
  · rw [hval]
    show (0 : ℚ) < bytesToGb 42949673
    rw [bytesToGb]
    norm_num
  · rw [hval]
    show (0 : ℚ) ≠ listMax [bytesToGb 42949673]
    show (0 : ℚ) ≠ bytesToGb 42949673
    rw [bytesToGb]
    norm_num

/-- C7 (amended): for a scope with at least one memory sample, each
reported peak figure equals the maximum observed over the samples
*rounded to one decimal* (Python `round(x, 1)`), and each reported
minimum-available figure equals the rounded minimum; the unrounded
maximum is ≥ every individual sample and the unrounded minimum is ≤
every individual sample.  (Because of the rounding, the reported figure
itself can drop below an individual sample — see the counterexample.) -/
theorem c7_reported_extrema (samples : List MemMetrics) (snapshot : MemMetrics)
    (s : MemMetrics) (hs : s ∈ samples) :
    (computePeakMemory samples snapshot).procMemPeakGb
      = round1 (listMax (samples.map (fun x => x.procMemGb)))
    ∧ (computePeakMemory samples snapshot).containerUsedPeakGb
      = round1 (listMax (samples.map (fun x => x.containerUsedGb)))
    ∧ (computePeakMemory samples snapshot).sysUsedPeakGb
      = round1 (listMax (samples.map (fun x => x.sysUsedGb)))
    ∧ (computePeakMemory samples snapshot).containerAvailMinGb
      = round1 (listMin (samples.map (fun x => x.containerAvailGb)))
    ∧ (computePeakMemory samples snapshot).sysAvailMinGb
      = round1 (listMin (samples.map (fun x => x.sysAvailGb)))
    ∧ s.procMemGb ≤ listMax (samples.map (fun x => x.procMemGb))
    ∧ s.containerUsedGb ≤ listMax (samples.map (fun x => x.containerUsedGb))
    ∧ s.sysUsedGb ≤ listMax (samples.map (fun x => x.sysUsedGb))
    ∧ listMin (samples.map (fun x => x.containerAvailGb)) ≤ s.containerAvailGb
    ∧ listMin (samples.map (fun x => x.sysAvailGb)) ≤ s.sysAvailGb := by
  have hne : samples.isEmpty = false := by
    cases samples with
    | nil => simp at hs
    | cons a as => rfl
  refine ⟨?_, ?_, ?_, ?_, ?_, ?_, ?_, ?_, ?_, ?_⟩
  · simp [computePeakMemory, hne]
  · simp [computePeakMemory, hne]
  · simp [computePeakMemory, hne]
  · simp [computePeakMemory, hne]
  · simp [computePeakMemory, hne]
  · exact le_listMax _ _ (List.mem_map_of_mem _ hs)
  · exact le_listMax _ _ (List.mem_map_of_mem _ hs)
  · exact le_listMax _ _ (List.mem_map_of_mem _ hs)
  · exact listMin_le _ _ (List.mem_map_of_mem _ hs)
  · exact listMin_le _ _ (List.mem_map_of_mem _ hs)

/-- First memory sample for the concrete instantiation. -/
def mA : MemMetrics :=
  { procMemGb := 1, containerLimitGb := 4, containerUsedGb := 1,
    containerAvailGb := 3, sysTotalGb := 8, sysUsedGb := 2, sysAvailGb := 6 }

/-- Second memory sample for the concrete instantiation. -/
def mB : MemMetrics :=
  { procMemGb := 2, containerLimitGb := 4, containerUsedGb := 2,
    containerAvailGb := 2, sysTotalGb := 8, sysUsedGb := 3, sysAvailGb := 5 }

/-- Concrete instantiation of `c7_reported_extrema`. -/
theorem c7_reported_extrema_witness :
    (computePeakMemory [mA, mB] mA).procMemPeakGb
      = round1 (listMax ([mA, mB].map (fun x => x.procMemGb)))
    ∧ mB.procMemGb ≤ listMax ([mA, mB].map (fun x => x.procMemGb))
    ∧ listMin ([mA, mB].map (fun x => x.sysAvailGb)) ≤ mB.sysAvailGb := by
  have h := c7_reported_extrema [mA, mB] mA mB (by simp)
  exact ⟨h.1, h.2.2.2.2.2.1, h.2.2.2.2.2.2.2.2.2⟩

/-- C8: a scope that collected zero samples computes its memory figures
from one immediate snapshot, not from zeroes, and still emits one
complete record to each log: the human row exists and the structured
entry carries all sixteen required keys. -/
theorem c8_zero_samples_snapshot_fallback {E A : Type} (body : Except E A)
    (currentStep apiCallName : String) (snapshot : MemMetrics) (sysInfo : SystemInfo)
    (startTime endTime : ℚ) :
    computePeakMemory [] snapshot
      = { procMemPeakGb := round1 snapshot.procMemGb
          containerLimitGb := round1 snapshot.containerLimitGb
          containerUsedPeakGb := round1 snapshot.containerUsedGb
          containerAvailMinGb := round1 snapshot.containerAvailGb
          sysTotalGb := round1 snapshot.sysTotalGb
          sysUsedPeakGb := round1 snapshot.sysUsedGb
          sysAvailMinGb := round1 snapshot.sysAvailGb }
    ∧ (runMonitorScope currentStep apiCallName
        { cpuSamples := [], gpuSamples := [], processCpuSamples := [],
          memorySamples := [] } snapshot sysInfo startTime endTime body).humanAppended.map
        (fun row => row.peak) = [computePeakMemory [] snapshot]
    ∧ (runMonitorScope currentStep apiCallName
        { cpuSamples := [], gpuSamples := [], processCpuSamples := [],
          memorySamples := [] } snapshot sysInfo startTime endTime
        body).humanAppended.length = 1
    ∧ (runMonitorScope currentStep apiCallName
        { cpuSamples := [], gpuSamples := [], processCpuSamples := [],
          memorySamples := [] } snapshot sysInfo startTime endTime
        body).yamlAppended.map (fun en => en.key) = yamlKeys := by
  exact ⟨rfl, rfl, rfl, rfl⟩

/-- `bytesToGb` distributes over byte subtraction. -/
theorem bytesToGb_sub (a b : Int) : bytesToGb (a - b) = bytesToGb a - bytesToGb b := by
  unfold bytesToGb
  push_cast
  ring

/-- C10: while both cgroup-v2 files exist, the reported
container-available figure is always computed as container limit minus
container used, never taken from the system's own available figure (last
conjunct: it is unchanged under any change of the system-available
reading); and a limit file reading `max` falls back to the whole-system
total, so container-available becomes system total minus cgroup used. -/
theorem c10_container_memory_from_cgroup (env : MemEnv) (c c2 : String)
    (hmax : env.cgroupMaxFile = some c) (hcur : env.cgroupCurrentFile = some c2) :
    (getMemoryMetrics env).containerAvailGb
      = (getMemoryMetrics env).containerLimitGb
        - (getMemoryMetrics env).containerUsedGb
    ∧ (strStrip c = "max" →
        (getMemoryMetrics env).containerLimitGb = bytesToGb env.sysTotalBytes
        ∧ ∀ n : Int, strToInt (strStrip c2) = some n →
            (getMemoryMetrics env).containerAvailGb
              = bytesToGb env.sysTotalBytes - bytesToGb n)
    ∧ (∀ x : Nat, (getMemoryMetrics { env with sysAvailBytes := x }).containerAvailGb
        = (getMemoryMetrics env).containerAvailGb) := by
  have hin : isInCgroupV2 env = true := by
    simp [isInCgroupV2, hmax, hcur]
  refine ⟨?_, ?_, ?_⟩
  · simp [getMemoryMetrics, hin, bytesToGb_sub]
  · intro hmaxs
    have hlim : readCgroupMemoryLimit env = none := by
      simp [readCgroupMemoryLimit, hmax, hmaxs]
    constructor
    · simp [getMemoryMetrics, hin, hlim]
    · intro n hn
      have hcur2 : readCgroupMemoryCurrent env = some n := by
        simp [readCgroupMemoryCurrent, hcur, hn]
      simp [getMemoryMetrics, hin, hlim, hcur2, bytesToGb_sub]
  · intro x
    simp [getMemoryMetrics, isInCgroupV2, readCgroupMemoryLimit,
      readCgroupMemoryCurrent, hmax, hcur]

/-- Concrete environment: unlimited cgroup limit, 1 GB cgroup usage,
4 GB system total. -/
def memEnvW : MemEnv :=
  { cgroupMaxFile := some "max\n"
    cgroupCurrentFile := some " 1073741824\n"
    procMemBytes := 536870912
    sysTotalBytes := 4294967296
    sysUsedBytes := 2147483648
    sysAvailBytes := 1073741824 }

/-- Concrete instantiation of `c10_container_memory_from_cgroup`. -/
theorem c10_container_memory_from_cgroup_witness :
    (getMemoryMetrics memEnvW).containerAvailGb
      = (getMemoryMetrics memEnvW).containerLimitGb
        - (getMemoryMetrics memEnvW).containerUsedGb
    ∧ (getMemoryMetrics memEnvW).containerLimitGb = bytesToGb memEnvW.sysTotalBytes
    ∧ (getMemoryMetrics memEnvW).containerAvailGb
      = bytesToGb memEnvW.sysTotalBytes - bytesToGb 1073741824 := by
  have h := c10_container_memory_from_cgroup memEnvW "max\n" " 1073741824\n" rfl rfl
  have h2 := h.2.1 (by decide)
  exact ⟨h.1, h2.1, h2.2 1073741824 (by decide)⟩
